import Mathlib

/-!
Verification of the EchoProp reactive-property library.

The embedding follows `index.js` (the file also present, with documentation,
as the unnamed source `part_002`): `createEchoProp` installs a get/set
accessor pair for a named field on a target object, keeps the last accepted
value in a closure variable `lastValue`, forwards accepted writes to an rxjs
`ReplaySubject`, and returns a handle with `value`, `name`, `subscribe`,
`asObservable` and `complete`.  `createEchoProps` maps `createEchoProp`
over the entries of a property book.

Mutable JavaScript state is embedded as explicit state passing over a
`World` holding the target object's fields and the per-property closure
states; subscriber notification is embedded as an explicit event trace.
-/

namespace EchoProp

variable {α β : Type}

/-- A JavaScript value flowing through the library.  `null` stands for both
JavaScript `null` and `undefined` (the source only distinguishes them with
loose equality `== null` / `!= null`, which identifies the two).
`prim a` is any ordinary value, drawn from an arbitrary type `α`.
`observable i` is the read-only view (`subject.asObservable()`) of
property `i`'s subject, which the source stores on the target as the
`name + "$"` field. -/
inductive JsVal (α : Type) where
  | null : JsVal α
  | prim (a : α) : JsVal α
  | observable (propId : Nat) : JsVal α
deriving DecidableEq

/-- `v.isNull` is the JavaScript loose test `v == null`. -/
def JsVal.isNull : JsVal α → Bool
  | .null => true
  | _ => false

theorem isNull_null : (JsVal.null : JsVal α).isNull = true := rfl

/-- A notification delivered to a subscriber: `nextEv s v` means subscriber
`s` receives value `v`; `completeEv s` means subscriber `s` receives the
completion signal. -/
inductive Ev (α : Type) where
  | nextEv (sub : Nat) (v : JsVal α) : Ev α
  | completeEv (sub : Nat) : Ev α
deriving DecidableEq

/-- The subscriber a notification is addressed to. -/
def Ev.sub : Ev α → Nat
  | .nextEv s _ => s
  | .completeEv s => s

/-- The last `n` elements of a list, in order (the contents of a ring buffer
of capacity `n` after pushing the whole list). -/
def takeLast (n : Nat) (l : List β) : List β := l.drop (l.length - n)

/-- Modelled from the spec: rxjs's `ReplaySubject` is an external dependency
whose source is not part of this repository.  The spec's design notes
describe it as "a small single-producer, multi-consumer broadcast channel
with a fixed-size circular buffer of the last N values, replayed to new
subscribers before live delivery begins", and the terminate operation as
ending the stream: "no further notifications are possible afterward;
existing subscribers receive a completion signal".  Subscribers are
identified by tokens (`Nat`); the subscriber list is kept in subscription
order. -/
structure ReplaySubject (α : Type) where
  bufferSize : Nat
  buffer : List (JsVal α) := []
  stopped : Bool := false
  subs : List Nat := []
deriving DecidableEq

/-- `subject.next v`: if the stream has ended this is a no-op; otherwise the
value enters the replay buffer (evicting the oldest when over capacity) and
is delivered to every current subscriber in subscription order. -/
def ReplaySubject.next (s : ReplaySubject α) (v : JsVal α) :
    ReplaySubject α × List (Ev α) :=
  if s.stopped then (s, [])
  else ({ s with buffer := takeLast s.bufferSize (s.buffer ++ [v]) },
        s.subs.map (fun i => Ev.nextEv i v))

/-- `subject.subscribe` with subscriber token `i`: the buffered values are
replayed immediately, oldest first; on a live stream the subscriber is then
registered for live delivery, on an ended stream it instead receives the
completion signal. -/
def ReplaySubject.subscribeOp (s : ReplaySubject α) (i : Nat) :
    ReplaySubject α × List (Ev α) :=
  if s.stopped then
    (s, s.buffer.map (fun v => Ev.nextEv i v) ++ [Ev.completeEv i])
  else
    ({ s with subs := s.subs ++ [i] }, s.buffer.map (fun v => Ev.nextEv i v))

/-- `subject.complete()`: ends the stream; every current subscriber receives
the completion signal and is deregistered.  Completing an ended stream is a
no-op. -/
def ReplaySubject.completeOp (s : ReplaySubject α) :
    ReplaySubject α × List (Ev α) :=
  if s.stopped then (s, [])
  else ({ s with stopped := true, subs := [] },
        s.subs.map (fun i => Ev.completeEv i))

/-- The configuration record of `createEchoProp`, with the source's default
values (`index.js` destructuring of `config`). -/
structure Config (α : Type) where
  addAsObservableToTarget : Bool := true
  replayCount : Nat := 1
  validate : Option (JsVal α → JsVal α → Bool) := none
  log : Bool := false
  useExistingValueAsInitial : Bool := true

/-- The closure state of one reactive property: the captured `validate` and
`log` options, the closure variable `lastValue`, and the property's
`ReplaySubject`.  (`log` only controls a `console.warn` diagnostic, which
has no modelled observable effect.) -/
structure PropState (α : Type) where
  validate : Option (JsVal α → JsVal α → Bool)
  log : Bool
  lastValue : JsVal α
  subject : ReplaySubject α

/-- A field of the target object: either an ordinary (writable) data
property, as created by plain assignment `target[k] = v`, or the get/set
accessor pair installed by `Object.defineProperty` for reactive property
`propId`. -/
inductive Field (α : Type) where
  | data (v : JsVal α) : Field α
  | accessor (propId : Nat) : Field α
deriving DecidableEq

/-- The target object's own fields, in insertion order. -/
abbrev Target (α : Type) := List (String × Field α)

/-- Own-property lookup (`target.hasOwnProperty(k)` is `(lookupField t
k).isSome`). -/
def lookupField (t : Target α) (k : String) : Option (Field α) :=
  match t with
  | [] => none
  | (k2, f) :: rest => if k2 = k then some f else lookupField rest k

/-- Store a field under key `k`, replacing the existing binding in place or
appending a new one.  This is both the effect of `Object.defineProperty`
(the source passes `configurable: true`, so redefinition is allowed) and
the effect of plain assignment on a non-accessor key. -/
def setField (t : Target α) (k : String) (f : Field α) : Target α :=
  match t with
  | [] => [(k, f)]
  | (k2, g) :: rest =>
      if k2 = k then (k2, f) :: rest else (k2, g) :: setField rest k f

/-- The whole mutable state: the target object's fields, the closure states
of the reactive properties created so far (property `i`'s state at index
`i`), and a counter supplying fresh subscriber tokens. -/
structure World (α : Type) where
  target : Target α
  props : List (PropState α)
  nextSubId : Nat := 0

/-- A world with an empty target object and no properties. -/
def emptyWorld (α : Type) : World α := { target := [], props := [], nextSubId := 0 }

/-- The property setter from `index.js`:

    set(newValue) {
        if (validate && !validate(newValue, lastValue)) { ...log...; return; }
        lastValue = newValue;
        subject.next(newValue);
    }
-/
def setProp (st : PropState α) (newValue : JsVal α) :
    PropState α × List (Ev α) :=
  match st.validate with
  | some f =>
      if f newValue st.lastValue then
        let r := st.subject.next newValue
        ({ st with lastValue := newValue, subject := r.1 }, r.2)
      else (st, [])
  | none =>
      let r := st.subject.next newValue
      ({ st with lastValue := newValue, subject := r.1 }, r.2)

/-- The read `target[k]`: a data field yields its value, an accessor field
invokes the getter (which returns the property's `lastValue`), an absent
field yields `undefined` (collapsed into `JsVal.null`). -/
def getTarget (w : World α) (k : String) : JsVal α :=
  match lookupField w.target k with
  | some (Field.data v) => v
  | some (Field.accessor i) =>
      match w.props[i]? with
      | some st => st.lastValue
      | none => JsVal.null
  | none => JsVal.null

/-- The write `target[k] = v`: on an accessor field this invokes the
installed setter; otherwise it creates or overwrites an ordinary writable
data field. -/
def assignTarget (w : World α) (k : String) (v : JsVal α) :
    World α × List (Ev α) :=
  match lookupField w.target k with
  | some (Field.accessor i) =>
      match w.props[i]? with
      | some st =>
          let r := setProp st v
          ({ w with props := w.props.set i r.1 }, r.2)
      | none => (w, [])
  | _ => ({ w with target := setField w.target k (Field.data v) }, [])

/-- `createEchoProp(target, propertyName, initialValue, config)` from
`index.js`: adopt the target's existing own value when `initialValue` is
null-ish and `useExistingValueAsInitial` holds; create the subject and seed
it with a non-null initial value; install the accessor pair; optionally
assign the observable view to `target[propertyName + "$"]`.  Returns the
updated world, the new property's id (standing for the returned handle),
and any notifications emitted (the plain `target[propertyName + "$"] = ...`
assignment can in principle hit an accessor field). -/
def createEchoProp (w : World α) (propertyName : String)
    (initialValue : JsVal α) (config : Config α) :
    World α × Nat × List (Ev α) :=
  let iv :=
    if config.useExistingValueAsInitial && initialValue.isNull
        && (lookupField w.target propertyName).isSome then
      getTarget w propertyName
    else initialValue
  let subject0 : ReplaySubject α := { bufferSize := config.replayCount }
  let subject1 := if iv.isNull then subject0 else (subject0.next iv).1
  let propId := w.props.length
  let st : PropState α :=
    { validate := config.validate, log := config.log,
      lastValue := iv, subject := subject1 }
  let w1 : World α :=
    { w with target := setField w.target propertyName (Field.accessor propId),
             props := w.props ++ [st] }
  if config.addAsObservableToTarget then
    let r := assignTarget w1 (propertyName ++ "$") (JsVal.observable propId)
    (r.1, propId, r.2)
  else
    (w1, propId, [])

/-- One step of `createEchoProps`'s `.map` over `Object.entries`, threading
the mutated target world and accumulating handles and notifications. -/
def createStep (config : Config α)
    (acc : World α × List Nat × List (Ev α)) (p : String × JsVal α) :
    World α × List Nat × List (Ev α) :=
  let r := createEchoProp acc.1 p.1 p.2 config
  (r.1, acc.2.1 ++ [r.2.1], acc.2.2 ++ r.2.2)

/-- `createEchoProps(target, propertyBook, config)` from `index.js`:
`Object.entries(propertyBook).map(([n, d]) => createEchoProp(target, n, d,
config))`.  The property book is given as its entry list in iteration
order. -/
def createEchoProps (w : World α) (propertyBook : List (String × JsVal α))
    (config : Config α) : World α × List Nat × List (Ev α) :=
  propertyBook.foldl (createStep config) (w, [], [])

/-- The handle's `value` getter: reads the property's `lastValue`. -/
def handleValue (w : World α) (i : Nat) : JsVal α :=
  match w.props[i]? with
  | some st => st.lastValue
  | none => JsVal.null

/-- The handle's `subscribe(callback)`: subscribes a fresh subscriber token
to the property's subject. -/
def subscribeProp (w : World α) (i : Nat) : World α × List (Ev α) :=
  match w.props[i]? with
  | some st =>
      let r := st.subject.subscribeOp w.nextSubId
      ({ w with props := w.props.set i { st with subject := r.1 },
                nextSubId := w.nextSubId + 1 }, r.2)
  | none => (w, [])

/-- The handle's `complete()`: completes the property's subject. -/
def completeProp (w : World α) (i : Nat) : World α × List (Ev α) :=
  match w.props[i]? with
  | some st =>
      let r := st.subject.completeOp
      ({ w with props := w.props.set i { st with subject := r.1 } }, r.2)
  | none => (w, [])

/-- A sequence of writes `target[name] = v` for `v` in `vs`, left to
right. -/
def writeSeq (w : World α) (name : String) (vs : List (JsVal α)) : World α :=
  vs.foldl (fun w2 v => (assignTarget w2 name v).1) w

/-- No accessor field of the target dangles past the property list.  This
holds of every world reachable through the library (an accessor field can
only be installed by `createEchoProp`, pointing at the property it creates),
and rules out aliasing that JavaScript closures make impossible. -/
def WfWorld (w : World α) : Prop :=
  ∀ k j, lookupField w.target k = some (Field.accessor j) → j < w.props.length

/-! ### Helper lemmas -/

theorem set_get_eq (l : List β) (i : Nat) (x : β) (h : l[i]? = some x) :
    l.set i x = l := by
  induction l generalizing i with
  | nil => simp at h
  | cons a t ih =>
      cases i with
      | zero =>
          simp only [List.getElem?_cons_zero, Option.some.injEq] at h
          simp [List.set, h]
      | succ n =>
          simp only [List.getElem?_cons_succ] at h
          simp [List.set, ih n h]

theorem takeLast_length (n : Nat) (l : List β) :
    (takeLast n l).length = min n l.length := by
  simp only [takeLast, List.length_drop]
  omega

theorem takeLast_nil (n : Nat) : takeLast n ([] : List β) = [] := by
  simp [takeLast]

theorem takeLast_idem_append (n : Nat) (l : List β) (v : β) :
    takeLast n (takeLast n l ++ [v]) = takeLast n (l ++ [v]) := by
  simp only [takeLast, List.drop_append_eq_append_drop, List.length_drop,
    List.length_append, List.drop_drop, List.length_singleton]
  congr 2 <;> omega

theorem takeLast_singleton (n : Nat) (v : β) (h : 1 ≤ n) :
    takeLast n [v] = [v] := by
  have h2 : 1 - n = 0 := by omega
  simp [takeLast, h2]

theorem lookupField_setField (t : Target α) (k k2 : String) (f : Field α) :
    lookupField (setField t k f) k2 =
      if k = k2 then some f else lookupField t k2 := by
  induction t with
  | nil => simp [setField, lookupField]
  | cons p rest ih =>
      by_cases h1 : p.1 = k
      · by_cases h2 : k = k2 <;>
          simp [setField, lookupField, h1, h2, ih]
      · by_cases h2 : p.1 = k2
        · have h3 : ¬ k = k2 := fun h => h1 (h2.trans h.symm)
          have h4 : ¬ k2 = k := fun h => h3 h.symm
          simp [setField, lookupField, h1, h2, h3, h4]
        · simp [setField, lookupField, h1, h2, ih]

theorem append_dollar_ne (s : String) : s ++ "$" ≠ s := by
  intro h
  have h2 := congrArg String.length h
  rw [String.length_append] at h2
  have h3 : ("$" : String).length = 1 := rfl
  omega

theorem getElem_some_lt (l : List β) (i : Nat) (x : β) (h : l[i]? = some x) :
    i < l.length := by
  by_contra hle
  rw [List.getElem?_eq_none_iff.mpr (by omega)] at h
  exact Option.noConfusion h

/-! ### Claim theorems -/

/-- C1: A write to `target[name]` for which the configured validator returns
a falsy result is a complete no-op: the whole world — the target's fields,
the property's `lastValue`, its history buffer, its subscriber list, and
every other property — is unchanged, and no notification is emitted.  The
embedded setter is a total function, so the write returns normally without
raising. -/
theorem rejected_write_is_noop (w : World α) (name : String) (i : Nat)
    (st : PropState α) (f : JsVal α → JsVal α → Bool) (v : JsVal α)
    (hfield : lookupField w.target name = some (Field.accessor i))
    (hst : w.props[i]? = some st)
    (hval : st.validate = some f)
    (hrej : f v st.lastValue = false) :
    assignTarget w name v = (w, []) := by
  simp only [assignTarget, hfield, hst, setProp, hval, hrej,
    Bool.false_eq_true, if_false]
  simp [set_get_eq w.props i st hst]

/-- Validator used by concrete witnesses: accepts exactly the primitive
values that are at least 5 (the spec's scenario validator). -/
def geFive : JsVal Nat → JsVal Nat → Bool
  | JsVal.prim m, _ => decide (5 ≤ m)
  | _, _ => false

/-- World for the C1 witness: one property `"x"` seeded with `5` and guarded
by `geFive`. -/
def w1C1 : World Nat :=
  (createEchoProp (emptyWorld Nat) "x" (JsVal.prim 5)
    { validate := some geFive }).1

/-- The closure state of the C1 witness property. -/
def st1C1 : PropState Nat :=
  { validate := some geFive, log := false, lastValue := JsVal.prim 5,
    subject := { bufferSize := 1, buffer := [JsVal.prim 5],
                 stopped := false, subs := [] } }

theorem rejected_write_is_noop_witness :
    assignTarget w1C1 "x" (JsVal.prim 2) = (w1C1, []) :=
  rejected_write_is_noop w1C1 "x" 0 st1C1 geFive (JsVal.prim 2)
    rfl rfl rfl rfl

/-- C2 counterexample: after the handle's terminate operation, a write that
passes validation (no validator is configured, so it is an accepted write)
updates `lastValue` but is *not* appended to the history buffer and notifies
nobody, refuting the claim's unconditional "the value is appended to the
history buffer (evicting the oldest entry if the buffer is at capacity)":
with capacity 1 the claimed buffer after the write would be `[prim 5]`,
while the actual buffer stays `[prim 0]`. -/
theorem accepted_write_buffered_counterexample :
    ((assignTarget
        (completeProp
          ((createEchoProp (emptyWorld Nat) "x" (JsVal.prim 0) {}).1) 0).1
        "x" (JsVal.prim 5)).1.props[0]?
      |>.map (fun st => (st.lastValue, st.subject.buffer)))
      = some (JsVal.prim 5, [JsVal.prim 0])
    ∧ takeLast 1 ([JsVal.prim 0] ++ [JsVal.prim 5]) = [JsVal.prim 5]
    ∧ ([JsVal.prim 0] : List (JsVal Nat)) ≠ [JsVal.prim 5] :=
  ⟨rfl, rfl, by decide⟩

/-- C2 (amended): for every accepted write (no validator configured, or the
validator returns true) to a property whose stream has *not* been
terminated, before the setter returns: `lastValue` becomes the new value,
the value is appended to the history buffer (evicting the oldest entry when
the buffer is at capacity), every currently registered subscriber is
notified with the value synchronously in subscription order, and
immediately afterwards `handle.value = target[name] =` the new value. -/
theorem accepted_write_updates_and_notifies (w : World α) (name : String)
    (i : Nat) (st : PropState α) (v : JsVal α)
    (hfield : lookupField w.target name = some (Field.accessor i))
    (hst : w.props[i]? = some st)
    (hacc : st.validate = none ∨
      ∃ f, st.validate = some f ∧ f v st.lastValue = true)
    (hlive : st.subject.stopped = false) :
    (assignTarget w name v).1.props[i]? = some
        { st with lastValue := v,
                  subject := { st.subject with
                    buffer := takeLast st.subject.bufferSize
                      (st.subject.buffer ++ [v]) } }
      ∧ (assignTarget w name v).2 = st.subject.subs.map (fun s => Ev.nextEv s v)
      ∧ getTarget (assignTarget w name v).1 name = v
      ∧ handleValue (assignTarget w name v).1 i = v := by
  have hlt : i < w.props.length := getElem_some_lt _ _ _ hst
  have hset : setProp st v =
      ({ st with lastValue := v,
                 subject := { st.subject with
                   buffer := takeLast st.subject.bufferSize
                     (st.subject.buffer ++ [v]) } },
       st.subject.subs.map (fun s => Ev.nextEv s v)) := by
    rcases hacc with hnone | ⟨f, hf, htrue⟩
    · simp [setProp, hnone, ReplaySubject.next, hlive]
    · simp [setProp, hf, htrue, ReplaySubject.next, hlive]
  have hget : ((w.props.set i
      { st with lastValue := v,
                subject := { st.subject with
                  buffer := takeLast st.subject.bufferSize
                    (st.subject.buffer ++ [v]) } })[i]?) = some
      { st with lastValue := v,
                subject := { st.subject with
                  buffer := takeLast st.subject.bufferSize
                    (st.subject.buffer ++ [v]) } } :=
    List.getElem?_set_self (by simpa using hlt)
  refine ⟨?_, ?_, ?_, ?_⟩ <;>
    simp [assignTarget, hfield, hst, hset, getTarget, handleValue, hget]

/-- World for the C2 witness: property `"x"` seeded with `0`, default
configuration, with one subscriber (token `0`) registered. -/
def w2C2 : World Nat :=
  (subscribeProp ((createEchoProp (emptyWorld Nat) "x" (JsVal.prim 0) {}).1) 0).1

/-- The closure state of the C2 witness property after the subscription. -/
def st2C2 : PropState Nat :=
  { validate := none, log := false, lastValue := JsVal.prim 0,
    subject := { bufferSize := 1, buffer := [JsVal.prim 0],
                 stopped := false, subs := [0] } }

theorem accepted_write_updates_and_notifies_witness :
    (assignTarget w2C2 "x" (JsVal.prim 10)).1.props[0]? = some
        { st2C2 with lastValue := JsVal.prim 10,
                     subject := { st2C2.subject with
                       buffer := takeLast st2C2.subject.bufferSize
                         (st2C2.subject.buffer ++ [JsVal.prim 10]) } }
      ∧ (assignTarget w2C2 "x" (JsVal.prim 10)).2 =
          st2C2.subject.subs.map (fun s => Ev.nextEv s (JsVal.prim 10))
      ∧ getTarget (assignTarget w2C2 "x" (JsVal.prim 10)).1 "x" = JsVal.prim 10
      ∧ handleValue (assignTarget w2C2 "x" (JsVal.prim 10)).1 0 = JsVal.prim 10 :=
  accepted_write_updates_and_notifies w2C2 "x" 0 st2C2 (JsVal.prim 10)
    rfl rfl (Or.inl rfl) rfl

/-- Writing through the accessor of a single unguarded property keeps the
world's shape: the target and the subscriber list are untouched,
`lastValue` follows the writes, and the buffer is folded through the ring
buffer push. -/
theorem writeSeq_shape (t : Target α) (name : String) (n R : Nat) (lg : Bool)
    (lv : JsVal α) (buf : List (JsVal α)) (ss : List Nat)
    (vs : List (JsVal α))
    (hfield : lookupField t name = some (Field.accessor 0)) :
    writeSeq ⟨t, [⟨none, lg, lv, ⟨R, buf, false, ss⟩⟩], n⟩ name vs =
      ⟨t, [⟨none, lg, vs.foldl (fun _ v => v) lv,
            ⟨R, vs.foldl (fun b v => takeLast R (b ++ [v])) buf,
             false, ss⟩⟩], n⟩ := by
  induction vs generalizing lv buf with
  | nil => rfl
  | cons v rest ih =>
      have hstep :
          (assignTarget (⟨t, [⟨none, lg, lv, ⟨R, buf, false, ss⟩⟩], n⟩ :
            World α) name v).1 =
          ⟨t, [⟨none, lg, v, ⟨R, takeLast R (buf ++ [v]), false, ss⟩⟩], n⟩ := by
        simp [assignTarget, hfield, setProp, ReplaySubject.next]
      have h1 :
          writeSeq (⟨t, [⟨none, lg, lv, ⟨R, buf, false, ss⟩⟩], n⟩ :
            World α) name (v :: rest) =
          writeSeq (⟨t, [⟨none, lg, v, ⟨R, takeLast R (buf ++ [v]), false,
            ss⟩⟩], n⟩ : World α) name rest := by
        simp only [writeSeq, List.foldl_cons, hstep]
      rw [h1, ih]
      simp

/-- Folding ring-buffer pushes over a list, starting from the last `R`
elements of a prefix, yields the last `R` elements of the whole. -/
theorem foldl_buffer_takeLast (R : Nat) (vs : List β) :
    ∀ p : List β,
      vs.foldl (fun b v => takeLast R (b ++ [v])) (takeLast R p) =
        takeLast R (p ++ vs) := by
  induction vs with
  | nil => intro p; simp
  | cons v rest ih =>
      intro p
      simp only [List.foldl_cons]
      rw [takeLast_idem_append]
      have h2 := ih (p ++ [v])
      simpa [List.append_assoc] using h2

/-- The accepted values feeding property `name`'s history: a non-null
initial value counts as the first accepted write, followed by the written
values in order. -/
def acceptedSeq (init : JsVal α) (vs : List (JsVal α)) : List (JsVal α) :=
  (if init.isNull then [] else [init]) ++ vs

/-- The world after creating one property with `replayCount := R` (other
options default) on an empty target and performing the writes `vs` through
the target. -/
def c3World (R : Nat) (name : String) (init : JsVal α)
    (vs : List (JsVal α)) : World α :=
  writeSeq ((createEchoProp (emptyWorld α) name init { replayCount := R }).1)
    name vs

/-- C3: for every `replayCount = R`, a subscriber registering after `N`
accepted writes (a non-null initial value counting as the first accepted
write) immediately receives exactly `min R N` of the most recent accepted
values — the last `R` of the accepted sequence — oldest first, and nothing
further until the next accepted write, which it then receives; with `R = 0`
the replayed list is empty. -/
theorem late_subscriber_replay (R : Nat) (name : String) (init : JsVal α)
    (vs : List (JsVal α)) (v2 : JsVal α) :
    (subscribeProp (c3World R name init vs) 0).2
        = (takeLast R (acceptedSeq init vs)).map (fun v => Ev.nextEv 0 v)
      ∧ ((subscribeProp (c3World R name init vs) 0).2).length
          = min R (acceptedSeq init vs).length
      ∧ (assignTarget ((subscribeProp (c3World R name init vs) 0).1) name v2).2
          = [Ev.nextEv 0 v2] := by
  have hne : ¬ (name = name ++ "$") := fun h => append_dollar_ne name h.symm
  have hfield : lookupField
      ([(name, Field.accessor 0),
        (name ++ "$", Field.data (JsVal.observable 0))] : Target α)
      name = some (Field.accessor 0) := by
    simp [lookupField]
  have hworld : c3World R name init vs =
      ⟨[(name, Field.accessor 0),
        (name ++ "$", Field.data (JsVal.observable 0))],
       [⟨none, false, vs.foldl (fun _ v => v) init,
         ⟨R, takeLast R (acceptedSeq init vs), false, []⟩⟩], 0⟩ := by
    cases hinit : init.isNull with
    | true =>
        have hcr : (createEchoProp (emptyWorld α) name init
            { replayCount := R }).1 =
            ⟨[(name, Field.accessor 0),
              (name ++ "$", Field.data (JsVal.observable 0))],
             [⟨none, false, init, ⟨R, [], false, []⟩⟩], 0⟩ := by
          simp [createEchoProp, emptyWorld, hinit, assignTarget, lookupField,
            setField, hne]
        unfold c3World
        rw [hcr, writeSeq_shape _ _ _ _ _ _ _ _ _ hfield]
        have h3 := foldl_buffer_takeLast R vs ([] : List (JsVal α))
        rw [takeLast_nil] at h3
        simp [h3, acceptedSeq, hinit]
    | false =>
        have hcr : (createEchoProp (emptyWorld α) name init
            { replayCount := R }).1 =
            ⟨[(name, Field.accessor 0),
              (name ++ "$", Field.data (JsVal.observable 0))],
             [⟨none, false, init, ⟨R, takeLast R [init], false, []⟩⟩], 0⟩ := by
          simp [createEchoProp, emptyWorld, hinit, assignTarget, lookupField,
            setField, hne, ReplaySubject.next]
        unfold c3World
        rw [hcr, writeSeq_shape _ _ _ _ _ _ _ _ _ hfield]
        have h3 := foldl_buffer_takeLast R vs [init]
        simp [h3, acceptedSeq, hinit]
  refine ⟨?_, ?_, ?_⟩
  · simp [hworld, subscribeProp, ReplaySubject.subscribeOp]
  · simp [hworld, subscribeProp, ReplaySubject.subscribeOp, takeLast_length]
  · simp [hworld, subscribeProp, ReplaySubject.subscribeOp, assignTarget,
      hfield, setProp, ReplaySubject.next]

/-- C4: with `initialValue` null-ish, `useExistingValueAsInitial` true (its
default) and a replay capacity of at least one, creating the property over a
target whose own field `name` holds the non-null value `V` adopts `V`:
`handle.value = V`, `target[name] = V`, and the first (and only) value
replayed to a subscriber is `V`. -/
theorem adopt_existing_value (name : String) (V : JsVal α) (cfg : Config α)
    (hV : V.isNull = false)
    (hUse : cfg.useExistingValueAsInitial = true)
    (hR : 1 ≤ cfg.replayCount) :
    handleValue (createEchoProp (⟨[(name, Field.data V)], [], 0⟩ : World α)
        name JsVal.null cfg).1 0 = V
      ∧ getTarget (createEchoProp (⟨[(name, Field.data V)], [], 0⟩ : World α)
          name JsVal.null cfg).1 name = V
      ∧ (subscribeProp (createEchoProp (⟨[(name, Field.data V)], [], 0⟩ :
          World α) name JsVal.null cfg).1 0).2 = [Ev.nextEv 0 V] := by
  have hne : ¬ (name = name ++ "$") := fun h => append_dollar_ne name h.symm
  have hbuf : takeLast cfg.replayCount [V] = [V] :=
    takeLast_singleton cfg.replayCount V hR
  have hworld : (createEchoProp (⟨[(name, Field.data V)], [], 0⟩ : World α)
      name JsVal.null cfg).1 =
      ⟨(if cfg.addAsObservableToTarget then
          [(name, Field.accessor 0), (name ++ "$", Field.data (JsVal.observable 0))]
        else [(name, Field.accessor 0)]),
       [⟨cfg.validate, cfg.log, V, ⟨cfg.replayCount, [V], false, []⟩⟩], 0⟩ := by
    cases hobs : cfg.addAsObservableToTarget with
    | true =>
        simp [createEchoProp, hUse, hV, hne, getTarget, lookupField, setField,
          assignTarget, ReplaySubject.next, hbuf, isNull_null, hobs,
          lookupField_setField]
    | false =>
        simp [createEchoProp, hUse, hV, hne, getTarget, lookupField, setField,
          ReplaySubject.next, hbuf, isNull_null, hobs]
  refine ⟨?_, ?_, ?_⟩ <;>
    cases hobs : cfg.addAsObservableToTarget <;>
      simp [hworld, hobs, handleValue, getTarget, lookupField, subscribeProp,
        ReplaySubject.subscribeOp]

theorem adopt_existing_value_witness :
    handleValue (createEchoProp
        (⟨[("existingProp", Field.data (JsVal.prim 42))], [], 0⟩ : World Nat)
        "existingProp" JsVal.null {}).1 0 = JsVal.prim 42
      ∧ getTarget (createEchoProp
          (⟨[("existingProp", Field.data (JsVal.prim 42))], [], 0⟩ : World Nat)
          "existingProp" JsVal.null {}).1 "existingProp" = JsVal.prim 42
      ∧ (subscribeProp (createEchoProp
          (⟨[("existingProp", Field.data (JsVal.prim 42))], [], 0⟩ : World Nat)
          "existingProp" JsVal.null {}).1 0).2 = [Ev.nextEv 0 (JsVal.prim 42)] :=
  adopt_existing_value "existingProp" (JsVal.prim 42) {} rfl rfl (by decide)

/-- C5: a non-null initial value (explicit or adopted) is accepted
unconditionally at creation time: for *every* configuration — in particular
one whose validator rejects every value — the freshly created property
state has `lastValue = v` and its history buffer seeded through the ring
buffer push of `v`, making `v` the first (and only) buffer entry whenever
the capacity is at least one.  The `validate` predicate is not consulted:
the resulting state is this same record for every choice of
`cfg.validate`. -/
theorem initial_value_bypasses_validation (w : World α) (name : String)
    (v : JsVal α) (cfg : Config α)
    (hv : v.isNull = false) (hwf : WfWorld w) :
    (createEchoProp w name v cfg).1.props[w.props.length]? = some
      ⟨cfg.validate, cfg.log, v,
       ⟨cfg.replayCount, takeLast cfg.replayCount [v], false, []⟩⟩
    ∧ (1 ≤ cfg.replayCount →
        ((createEchoProp w name v cfg).1.props[w.props.length]?).map
          (fun st => st.subject.buffer) = some [v]) := by
  have hne : ¬ (name = name ++ "$") := fun h => append_dollar_ne name h.symm
  have hmain : (createEchoProp w name v cfg).1.props[w.props.length]? = some
      ⟨cfg.validate, cfg.log, v,
       ⟨cfg.replayCount, takeLast cfg.replayCount [v], false, []⟩⟩ := by
    unfold createEchoProp
    simp only [hv, Bool.and_false, Bool.false_and, Bool.false_eq_true,
      if_false, ReplaySubject.next, List.nil_append]
    cases hobs : cfg.addAsObservableToTarget with
    | false => simp
    | true =>
        simp only [if_pos rfl, assignTarget]
        rw [lookupField_setField]
        simp only [hne, if_false]
        rcases hl : lookupField w.target (name ++ "$") with _ | fld
        · simp
        · cases fld with
          | data d => simp
          | accessor j =>
              have hj : j < w.props.length := hwf (name ++ "$") j hl
              have hjne : j ≠ w.props.length := by omega
              have hjget : (w.props ++
                  [(⟨cfg.validate, cfg.log, v,
                    ⟨cfg.replayCount, takeLast cfg.replayCount [v], false,
                     []⟩⟩ : PropState α)])[j]? = some (w.props.get ⟨j, hj⟩) := by
                rw [List.getElem?_append]
                rw [if_pos hj]
                exact List.getElem?_eq_getElem hj
              simp [hjget, List.getElem?_set_ne hjne,
                List.getElem?_concat_length]
  refine ⟨hmain, fun hR => ?_⟩
  rw [hmain, takeLast_singleton _ _ hR]
  rfl

/-- A validator rejecting every value, used by the C5 witness. -/
def rejectAll : JsVal Nat → JsVal Nat → Bool := fun _ _ => false

theorem initial_value_bypasses_validation_witness :
    (createEchoProp (emptyWorld Nat) "x" (JsVal.prim 7)
        { validate := some rejectAll }).1.props[(emptyWorld Nat).props.length]?
      = some ⟨some rejectAll, false, JsVal.prim 7,
          ⟨1, takeLast 1 [JsVal.prim 7], false, []⟩⟩
    ∧ (1 ≤ (1 : Nat) →
        ((createEchoProp (emptyWorld Nat) "x" (JsVal.prim 7)
          { validate := some rejectAll }).1.props[(emptyWorld Nat).props.length]?).map
          (fun st => st.subject.buffer) = some [JsVal.prim 7]) :=
  initial_value_bypasses_validation (emptyWorld Nat) "x" (JsVal.prim 7)
    { validate := some rejectAll } rfl
    (by intro k j h; simp [emptyWorld, lookupField] at h)

/-- C6 counterexample: the field `"x$"` installed by `createEchoProp` is an
ordinary *writable* data field — the source creates it with the plain
assignment `target[propertyName + "$"] = subject.asObservable()`, not with
a non-writable property definition — so a subsequent assignment to
`target["x$"]` does replace it, refuting the claim that the field is
read-only and assignments to it leave it in place. -/
theorem observable_field_replaced_counterexample :
    lookupField
        ((createEchoProp (emptyWorld Nat) "x" (JsVal.prim 5) {}).1).target "x$"
        = some (Field.data (JsVal.observable 0))
      ∧ lookupField ((assignTarget
            ((createEchoProp (emptyWorld Nat) "x" (JsVal.prim 5) {}).1)
            "x$" (JsVal.prim 7)).1).target "x$"
          = some (Field.data (JsVal.prim 7))
      ∧ (Field.data (JsVal.prim 7) : Field Nat)
          ≠ Field.data (JsVal.observable 0) :=
  ⟨by decide, by decide, by decide⟩

/-- C6 (amended): when `addAsObservableToTarget` is true (the default),
`createEchoProp` installs on the target a field `name + "$"` holding the
read-only view of the stream (`subject.asObservable()`); the field itself,
however, is an ordinary writable data field created by plain assignment,
so a subsequent assignment to `target[name + "$"]` replaces it. -/
theorem observable_field_installed_writable (name : String) (v u : JsVal α)
    (cfg : Config α) (hobs : cfg.addAsObservableToTarget = true) :
    lookupField ((createEchoProp (emptyWorld α) name v cfg).1).target
        (name ++ "$") = some (Field.data (JsVal.observable 0))
      ∧ lookupField ((assignTarget
            ((createEchoProp (emptyWorld α) name v cfg).1)
            (name ++ "$") u).1).target (name ++ "$")
          = some (Field.data u) := by
  have hne : ¬ (name = name ++ "$") := fun h => append_dollar_ne name h.symm
  have htgt : ((createEchoProp (emptyWorld α) name v cfg).1).target =
      [(name, Field.accessor 0),
       (name ++ "$", Field.data (JsVal.observable 0))] := by
    cases hv : v.isNull <;>
      simp [createEchoProp, emptyWorld, hv, hne, hobs, lookupField, setField,
        assignTarget, ReplaySubject.next]
  constructor
  · rw [htgt]
    simp [lookupField, hne]
  · have hl : lookupField ((createEchoProp (emptyWorld α) name v cfg).1).target
        (name ++ "$") = some (Field.data (JsVal.observable 0)) := by
      rw [htgt]; simp [lookupField, hne]
    simp [assignTarget, hl, htgt, lookupField_setField, lookupField, hne]

theorem observable_field_installed_writable_witness :
    lookupField
        ((createEchoProp (emptyWorld Nat) "x" (JsVal.prim 5) {}).1).target
        ("x" ++ "$") = some (Field.data (JsVal.observable 0))
      ∧ lookupField ((assignTarget
            ((createEchoProp (emptyWorld Nat) "x" (JsVal.prim 5) {}).1)
            ("x" ++ "$") (JsVal.prim 7)).1).target ("x" ++ "$")
          = some (Field.data (JsVal.prim 7)) :=
  observable_field_installed_writable "x" (JsVal.prim 5) (JsVal.prim 7) {} rfl

/-- On a property whose stream has ended, the setter never emits a
notification — whether the write is rejected by the validator or accepted
and forwarded to the completed subject. -/
theorem setProp_stopped_events (st : PropState α) (u : JsVal α)
    (h : st.subject.stopped = true) :
    (setProp st u).2 = [] := by
  cases hval : st.validate with
  | none => simp [setProp, hval, ReplaySubject.next, h]
  | some f =>
      by_cases hf : f u st.lastValue = true
      · simp [setProp, hval, hf, ReplaySubject.next, h]
      · simp [setProp, hval, hf]

/-- Writing through the accessor of a property whose stream has ended emits
no notification. -/
theorem stopped_world_no_write_events (w2 : World α) (name : String)
    (i : Nat) (st2 : PropState α) (u : JsVal α)
    (hfield2 : lookupField w2.target name = some (Field.accessor i))
    (hst2 : w2.props[i]? = some st2)
    (hstop : st2.subject.stopped = true) :
    (assignTarget w2 name u).2 = [] := by
  simp [assignTarget, hfield2, hst2, setProp_stopped_events st2 u hstop]

/-- The closure state of a property after its subject completes. -/
def stoppedState (st : PropState α) : PropState α :=
  ⟨st.validate, st.log, st.lastValue,
   ⟨st.subject.bufferSize, st.subject.buffer, true, []⟩⟩

theorem stoppedState_stopped (st : PropState α) :
    (stoppedState st).subject.stopped = true := rfl

theorem stoppedState_buffer (st : PropState α) :
    (stoppedState st).subject.buffer = st.subject.buffer := rfl

/-- C7: once the handle's terminate operation (`complete`) has been
invoked: every existing subscriber receives the completion signal; the
accessor binding on the target is left intact; and no subscriber — already
registered or newly registering — is ever notified of a subsequent write:
writes after completion emit no notification at all, while a subscriber
registering after completion receives only the pre-completion buffer
followed by the completion signal, and writes after that registration also
emit nothing. -/
theorem complete_stops_notifications (w : World α) (name : String) (i : Nat)
    (st : PropState α) (v v2 : JsVal α)
    (hfield : lookupField w.target name = some (Field.accessor i))
    (hst : w.props[i]? = some st)
    (hlive : st.subject.stopped = false) :
    (completeProp w i).2 = st.subject.subs.map (fun s => Ev.completeEv s)
      ∧ (completeProp w i).1.target = w.target
      ∧ (assignTarget (completeProp w i).1 name v).2 = []
      ∧ (subscribeProp (completeProp w i).1 i).2
          = st.subject.buffer.map (fun b => Ev.nextEv w.nextSubId b)
            ++ [Ev.completeEv w.nextSubId]
      ∧ (assignTarget (subscribeProp (completeProp w i).1 i).1 name v2).2
          = [] := by
  have hlt : i < w.props.length := getElem_some_lt _ _ _ hst
  have hcomp : completeProp w i =
      ({ w with props := w.props.set i (stoppedState st) },
       st.subject.subs.map (fun s => Ev.completeEv s)) := by
    simp [completeProp, hst, ReplaySubject.completeOp, hlive, stoppedState]
  have hst2 : (w.props.set i (stoppedState st))[i]? = some (stoppedState st) :=
    List.getElem?_set_self (by simpa using hlt)
  refine ⟨?_, ?_, ?_, ?_, ?_⟩
  · rw [hcomp]
  · rw [hcomp]
  · rw [hcomp]
    exact stopped_world_no_write_events _ name i _ v hfield hst2 rfl
  · rw [hcomp]
    simp [subscribeProp, hst2, ReplaySubject.subscribeOp, stoppedState_stopped,
      stoppedState_buffer]
  · rw [hcomp]
    have hsub : (subscribeProp
        ({ w with props := w.props.set i (stoppedState st) }) i).1 =
        { w with props := (w.props.set i (stoppedState st)).set i
                            (stoppedState st),
                 nextSubId := w.nextSubId + 1 } := by
      simp [subscribeProp, hst2, ReplaySubject.subscribeOp,
        stoppedState_stopped]
    rw [hsub]
    exact stopped_world_no_write_events _ name i (stoppedState st) v2 hfield
      (List.getElem?_set_self (by simpa using hlt)) (stoppedState_stopped st)

/-- World for the C7 witness: property `"x"` seeded with `1`, default
configuration, one subscriber registered. -/
def wC7 : World Nat :=
  (subscribeProp ((createEchoProp (emptyWorld Nat) "x" (JsVal.prim 1) {}).1) 0).1

/-- The closure state of the C7 witness property before completion. -/
def stC7 : PropState Nat :=
  ⟨none, false, JsVal.prim 1, ⟨1, [JsVal.prim 1], false, [0]⟩⟩

theorem complete_stops_notifications_witness :
    (completeProp wC7 0).2 = stC7.subject.subs.map (fun s => Ev.completeEv s)
      ∧ (completeProp wC7 0).1.target = wC7.target
      ∧ (assignTarget (completeProp wC7 0).1 "x" (JsVal.prim 2)).2 = []
      ∧ (subscribeProp (completeProp wC7 0).1 0).2
          = stC7.subject.buffer.map (fun b => Ev.nextEv wC7.nextSubId b)
            ++ [Ev.completeEv wC7.nextSubId]
      ∧ (assignTarget (subscribeProp (completeProp wC7 0).1 0).1 "x"
          (JsVal.prim 3)).2 = [] :=
  complete_stops_notifications wC7 "x" 0 stC7 (JsVal.prim 2) (JsVal.prim 3)
    rfl rfl rfl

/-- The batched contract written to the spec's words: "For each `(name,
initialValue)` pair in `mapping`, in the mapping's iteration order, invokes
4.1 with the shared `options`.  Returns the handles in the same order." -/
def createEchoPropsSpec (w : World α) (book : List (String × JsVal α))
    (config : Config α) : World α × List Nat × List (Ev α) :=
  match book with
  | [] => (w, [], [])
  | (n, v) :: rest =>
      let r := createEchoProp w n v config
      let r2 := createEchoPropsSpec r.1 rest config
      (r2.1, r.2.1 :: r2.2.1, r.2.2 ++ r2.2.2)

theorem createStep_foldl (config : Config α)
    (book : List (String × JsVal α)) :
    ∀ (w : World α) (ids : List Nat) (evs : List (Ev α)),
      book.foldl (createStep config) (w, ids, evs) =
        ((createEchoPropsSpec w book config).1,
         ids ++ (createEchoPropsSpec w book config).2.1,
         evs ++ (createEchoPropsSpec w book config).2.2) := by
  induction book with
  | nil =>
      intro w ids evs
      simp [createEchoPropsSpec]
  | cons p rest ih =>
      intro w ids evs
      cases p with
      | mk n v =>
          simp only [List.foldl_cons, createStep, createEchoPropsSpec]
          rw [ih]
          simp [List.append_assoc]

/-- C8: `createEchoProps target mapping options` produces exactly the world
evolution, handle sequence and notifications of calling `createEchoProp
target name initialValue options` once per `(name, initialValue)` pair of
the mapping, in the mapping's iteration order, with the same shared options
for every call. -/
theorem createEchoProps_eq_spec (w : World α)
    (book : List (String × JsVal α)) (config : Config α) :
    createEchoProps w book config = createEchoPropsSpec w book config := by
  have h := createStep_foldl config book w [] []
  simpa [createEchoProps] using h

/-- The possible notification lists of one setter invocation: nothing (a
rejected write, or a completed stream), or the written value delivered to
every subscriber in subscription order. -/
theorem setProp_events_cases (st : PropState α) (v : JsVal α) :
    (setProp st v).2 = [] ∨
      (setProp st v).2 = st.subject.subs.map (fun s => Ev.nextEv s v) := by
  cases hval : st.validate with
  | none =>
      cases hstop : st.subject.stopped with
      | true => left; simp [setProp, hval, ReplaySubject.next, hstop]
      | false => right; simp [setProp, hval, ReplaySubject.next, hstop]
  | some f =>
      by_cases hf : f v st.lastValue = true
      · cases hstop : st.subject.stopped with
        | true => left; simp [setProp, hval, hf, ReplaySubject.next, hstop]
        | false => right; simp [setProp, hval, hf, ReplaySubject.next, hstop]
      · left; simp [setProp, hval, hf]

/-- C9: properties on distinct names share no state: a write through
`name`'s accessor (accepted or rejected) and a termination of property `i`
leave property `j`'s whole state — `lastValue`, history buffer, subscriber
list — unchanged, and every emitted notification is addressed to one of
property `i`'s subscribers and (the token sets being disjoint) never to one
of property `j`'s subscribers. -/
theorem properties_independent (w : World α) (name : String) (i j : Nat)
    (st stj : PropState α) (v : JsVal α)
    (hfield : lookupField w.target name = some (Field.accessor i))
    (hsti : w.props[i]? = some st)
    (hne : j ≠ i)
    (hstj : w.props[j]? = some stj)
    (hdisj : ∀ s, s ∈ st.subject.subs → s ∉ stj.subject.subs) :
    (assignTarget w name v).1.props[j]? = some stj
      ∧ (assignTarget w name v).2.all
          (fun e => decide (Ev.sub e ∈ st.subject.subs)) = true
      ∧ (assignTarget w name v).2.all
          (fun e => decide (Ev.sub e ∉ stj.subject.subs)) = true
      ∧ (completeProp w i).1.props[j]? = some stj
      ∧ (completeProp w i).2.all
          (fun e => decide (Ev.sub e ∈ st.subject.subs)) = true
      ∧ (completeProp w i).2.all
          (fun e => decide (Ev.sub e ∉ stj.subject.subs)) = true := by
  have hij : i ≠ j := fun h => hne h.symm
  have hevs := setProp_events_cases st v
  refine ⟨?_, ?_, ?_, ?_, ?_, ?_⟩
  · simp [assignTarget, hfield, hsti, List.getElem?_set_ne hij, hstj]
  · rcases hevs with h | h <;>
      simp [assignTarget, hfield, hsti, h, List.all_eq_true, Ev.sub]
  · rcases hevs with h | h <;>
      simp [assignTarget, hfield, hsti, h, List.all_eq_true, Ev.sub]
    intro s hs
    exact hdisj s hs
  · cases hstop : st.subject.stopped <;>
      simp [completeProp, hsti, ReplaySubject.completeOp, hstop,
        List.getElem?_set_ne hij, hstj]
  · cases hstop : st.subject.stopped <;>
      simp [completeProp, hsti, ReplaySubject.completeOp, hstop,
        List.all_eq_true, Ev.sub]
  · cases hstop : st.subject.stopped <;>
      simp [completeProp, hsti, ReplaySubject.completeOp, hstop,
        List.all_eq_true, Ev.sub]
    intro s hs
    exact hdisj s hs

/-- World for the C9 witness: the spec's scenario — two independent
properties `score` and `health` created by the batched call. -/
def wC9 : World Nat :=
  (createEchoProps (emptyWorld Nat)
    [("score", JsVal.prim 0), ("health", JsVal.prim 100)] {}).1

/-- The closure state of the C9 witness `score` property. -/
def stC9a : PropState Nat :=
  ⟨none, false, JsVal.prim 0, ⟨1, [JsVal.prim 0], false, []⟩⟩

/-- The closure state of the C9 witness `health` property. -/
def stC9b : PropState Nat :=
  ⟨none, false, JsVal.prim 100, ⟨1, [JsVal.prim 100], false, []⟩⟩

theorem properties_independent_witness :
    (assignTarget wC9 "score" (JsVal.prim 10)).1.props[1]? = some stC9b
      ∧ (assignTarget wC9 "score" (JsVal.prim 10)).2.all
          (fun e => decide (Ev.sub e ∈ stC9a.subject.subs)) = true
      ∧ (assignTarget wC9 "score" (JsVal.prim 10)).2.all
          (fun e => decide (Ev.sub e ∉ stC9b.subject.subs)) = true
      ∧ (completeProp wC9 0).1.props[1]? = some stC9b
      ∧ (completeProp wC9 0).2.all
          (fun e => decide (Ev.sub e ∈ stC9a.subject.subs)) = true
      ∧ (completeProp wC9 0).2.all
          (fun e => decide (Ev.sub e ∉ stC9b.subject.subs)) = true :=
  properties_independent wC9 "score" 0 1 stC9a stC9b (JsVal.prim 10)
    rfl rfl (by decide) rfl (by intro s hs; simp [stC9a] at hs)

/-- C10: after the terminate operation, an assignment to `target[name]`
that passes validation still updates `lastValue` — so `target[name]` and
`handle.value` subsequently read the new value — even though no subscriber
is notified of it and the history buffer is frozen. -/
theorem write_after_complete_updates_value (w : World α) (name : String)
    (i : Nat) (st : PropState α) (v : JsVal α)
    (hfield : lookupField w.target name = some (Field.accessor i))
    (hst : w.props[i]? = some st)
    (hstop : st.subject.stopped = true)
    (hacc : st.validate = none ∨
      ∃ f, st.validate = some f ∧ f v st.lastValue = true) :
    (assignTarget w name v).2 = []
      ∧ getTarget (assignTarget w name v).1 name = v
      ∧ handleValue (assignTarget w name v).1 i = v := by
  have hlt : i < w.props.length := getElem_some_lt _ _ _ hst
  have hset : setProp st v = ({ st with lastValue := v }, []) := by
    rcases hacc with hnone | ⟨f, hf, htrue⟩
    · simp [setProp, hnone, ReplaySubject.next, hstop]
    · simp [setProp, hf, htrue, ReplaySubject.next, hstop]
  refine ⟨?_, ?_, ?_⟩ <;>
    simp [assignTarget, hfield, hst, hset, getTarget, handleValue, hlt,
      List.getElem?_set_self]

/-- World for the C10 witness: property `"x"` seeded with `5`, guarded by
`geFive`, then completed. -/
def wC10 : World Nat :=
  (completeProp ((createEchoProp (emptyWorld Nat) "x" (JsVal.prim 5)
    { validate := some geFive }).1) 0).1

/-- The closure state of the C10 witness property after completion. -/
def stC10 : PropState Nat :=
  ⟨some geFive, false, JsVal.prim 5, ⟨1, [JsVal.prim 5], true, []⟩⟩

theorem write_after_complete_updates_value_witness :
    (assignTarget wC10 "x" (JsVal.prim 10)).2 = []
      ∧ getTarget (assignTarget wC10 "x" (JsVal.prim 10)).1 "x"
          = JsVal.prim 10
      ∧ handleValue (assignTarget wC10 "x" (JsVal.prim 10)).1 0
          = JsVal.prim 10 :=
  write_after_complete_updates_value wC10 "x" 0 stC10 (JsVal.prim 10)
    rfl rfl rfl (Or.inr ⟨geFive, rfl, rfl⟩)

end EchoProp
